import Mathlib

/-!
Verification of the analytics layer of the epochai benchmark-results tooling.

The repository consists of three analysis scripts over four flat record
collections (models, tasks, benchmark runs, scores):

* `missing_combos`             : completeness-gap detection and summary stats;
* `airtable`                   : top-N rankings and best-so-far timelines;
* `reasoning_models_analysis`  : multi-task comparison matrices.

Each Python function with analytic content is embedded below as an executable
Lean definition operating on the same record shapes.  Dates are represented as
ordinals (Nat), score means and standard errors as rationals, and the Python
stable sort (`sorted`) as `List.insertionSort`, which is likewise stable.
The float negative infinity used to seed the best-so-far scan is represented
by `none : Option Rat`.  Fallible computations (Python code that can raise
`ZeroDivisionError` or `KeyError`) are embedded in `Except Unit`.
-/

set_option linter.unusedVariables false

namespace Epoch

/-- Record shape for an ML model: unique id and optional release date
(ordinal day number; `none` when absent). -/
structure MLModel where
  model_id : String
  release_date : Option Nat
  deriving Repr, DecidableEq

/-- Record shape for a benchmark task: unique dot-delimited path and optional
human-readable name. -/
structure Task where
  path : String
  name : Option String
  deriving Repr, DecidableEq

/-- Record shape for a benchmark run: one model, one task, a status string
(only the value "Success" counts as successful). -/
structure BenchmarkRun where
  model : MLModel
  task : Task
  status : String
  deriving Repr, DecidableEq

/-- Record shape for a score: its run, a scorer identifier, a mean and a
standard error. -/
structure Score where
  benchmark_run : BenchmarkRun
  scorer : String
  mean : Rat
  stderr : Rat
  deriving Repr, DecidableEq

/-! ## Completeness Analyzer (missing_combos.py) -/

/-- Embeds the filter on line 52 of missing_combos.py: runs with status
"Success". -/
def successful_runs (runs : List BenchmarkRun) : List BenchmarkRun :=
  runs.filter (fun run => run.status == "Success")

/-- Embeds line 56: the set of (model_id, task_path) pairs among successful
runs. -/
def existing_combinations (runs : List BenchmarkRun) : Finset (String × String) :=
  ((successful_runs runs).map (fun run => (run.model.model_id, run.task.path))).toFinset

/-- Embeds line 62: the set of model_ids appearing in at least one successful
run. -/
def active_models (runs : List BenchmarkRun) : Finset String :=
  ((successful_runs runs).map (fun run => run.model.model_id)).toFinset

/-- Embeds get_missing_combinations (missing_combos.py lines 43-75): the
Cartesian product of the active models with all task paths, minus the
existing successful combinations.  The models parameter is accepted but,
as in the source, never used. -/
def get_missing_combinations (runs : List BenchmarkRun) (models : List MLModel)
    (tasks : List Task) : Finset (String × String) :=
  let all_combinations := active_models runs ×ˢ (tasks.map Task.path).toFinset
  all_combinations \ existing_combinations runs

/-- C1: the missing set is exactly (active_models × all task paths) minus the
existing successful pairs, where active_models is the set of model_ids with at
least one successful run; in particular a model with zero successful runs
contributes no missing pairs. -/
theorem missing_combinations_exact (runs : List BenchmarkRun) (models : List MLModel)
    (tasks : List Task) :
    (∀ m t, (m, t) ∈ get_missing_combinations runs models tasks ↔
      ((∃ r ∈ runs, r.status = "Success" ∧ r.model.model_id = m) ∧
       (∃ tk ∈ tasks, tk.path = t) ∧
       ¬ (∃ r ∈ runs, r.status = "Success" ∧ r.model.model_id = m ∧ r.task.path = t))) ∧
    (∀ m, (¬ ∃ r ∈ runs, r.status = "Success" ∧ r.model.model_id = m) →
      ∀ t, (m, t) ∉ get_missing_combinations runs models tasks) := by
  constructor
  · intro m t
    simp only [get_missing_combinations, active_models, existing_combinations,
      successful_runs, Finset.mem_sdiff, Finset.mem_product, List.mem_toFinset,
      List.mem_map, List.mem_filter, beq_iff_eq, Prod.mk.injEq]
    constructor
    · rintro ⟨⟨⟨r, ⟨hr, hs⟩, hm⟩, ⟨tk, htk, hp⟩⟩, hne⟩
      refine ⟨⟨r, hr, hs, hm⟩, ⟨tk, htk, hp⟩, ?_⟩
      rintro ⟨r2, hr2, hs2, hm2, hp2⟩
      exact hne ⟨r2, ⟨hr2, hs2⟩, hm2, hp2⟩
    · rintro ⟨⟨r, hr, hs, hm⟩, ⟨tk, htk, hp⟩, hne⟩
      refine ⟨⟨⟨r, ⟨hr, hs⟩, hm⟩, ⟨tk, htk, hp⟩⟩, ?_⟩
      rintro ⟨r2, ⟨hr2, hs2⟩, hm2, hp2⟩
      exact hne ⟨r2, hr2, hs2, hm2, hp2⟩
  · intro m hm t hmem
    simp only [get_missing_combinations] at hmem
    have h2 := (Finset.mem_sdiff.mp hmem).1
    have h3 := (Finset.mem_product.mp h2).1
    simp only [active_models, successful_runs, List.mem_toFinset, List.mem_map,
      List.mem_filter, beq_iff_eq] at h3
    rcases h3 with ⟨r, ⟨hr, hs⟩, hmid⟩
    exact hm ⟨r, hr, hs, hmid⟩

/-- Concrete records used in witnesses and counterexamples. -/
def exModelA : MLModel := { model_id := "a", release_date := none }

/-- Concrete dated model used in witnesses. -/
def exModelB : MLModel := { model_id := "b", release_date := some 100 }

/-- Concrete task used in witnesses and counterexamples. -/
def exTaskT : Task := { path := "t", name := none }

/-- Concrete second task used in witnesses. -/
def exTaskU : Task := { path := "u", name := none }

/-- Concrete successful run used in witnesses and counterexamples. -/
def exRunAT : BenchmarkRun := { model := exModelA, task := exTaskT, status := "Success" }

/-- Witness for C1 at a concrete snapshot: one successful run of model "a" on
task "t" over the task universe \x7bt, u\x7d. -/
theorem missing_combinations_exact_witness :
    (("a", "u") ∈ get_missing_combinations [exRunAT] [exModelA] [exTaskT, exTaskU] ↔
      ((∃ r ∈ [exRunAT], r.status = "Success" ∧ r.model.model_id = "a") ∧
       (∃ tk ∈ [exTaskT, exTaskU], tk.path = "u") ∧
       ¬ (∃ r ∈ [exRunAT], r.status = "Success" ∧ r.model.model_id = "a" ∧
          r.task.path = "u"))) ∧
    (("z", "t") ∉ get_missing_combinations [exRunAT] [exModelA] [exTaskT, exTaskU]) := by
  refine ⟨(missing_combinations_exact [exRunAT] [exModelA] [exTaskT, exTaskU]).1 "a" "u", ?_⟩
  refine (missing_combinations_exact [exRunAT] [exModelA] [exTaskT, exTaskU]).2 "z" ?_ "t"
  rintro ⟨r, hr, _, hm⟩
  simp only [List.mem_singleton] at hr
  subst hr
  simp [exRunAT, exModelA] at hm

/-- C2 counterexample: get_missing_combinations ignores its models argument,
so with a run whose model is absent from the model collection, active_models
is not a subset of the collection model_ids.  Here runs = [exRunAT] (model
"a") and the model collection is empty. -/
theorem active_models_not_subset_counterexample :
    ¬ (active_models [exRunAT] ⊆ (([] : List MLModel).map MLModel.model_id).toFinset) := by
  decide

/-- C2 (amended): active_models is a subset of the collection model_ids under
the assumption that every successful run references a model_id present in the
model collection (the code never reads that collection, so the subset can fail
otherwise); and unconditionally, for arbitrary run and model collections, a
model_id absent from active_models never appears as the first element of a
missing pair. -/
theorem active_models_subset (runs : List BenchmarkRun) (models : List MLModel)
    (tasks : List Task) :
    ((∀ r ∈ runs, r.status = "Success" → r.model.model_id ∈ models.map MLModel.model_id) →
      ∀ m ∈ active_models runs, m ∈ models.map MLModel.model_id) ∧
    (∀ m t, (m, t) ∈ get_missing_combinations runs models tasks → m ∈ active_models runs) := by
  constructor
  · intro h m hm
    simp only [active_models, successful_runs, List.mem_toFinset, List.mem_map,
      List.mem_filter, beq_iff_eq] at hm
    rcases hm with ⟨r, ⟨hr, hs⟩, hmid⟩
    exact hmid ▸ h r hr hs
  · intro m t hmem
    simp only [get_missing_combinations] at hmem
    have h2 := (Finset.mem_sdiff.mp hmem).1
    exact (Finset.mem_product.mp h2).1

/-- Witness for C2 (amended) at a concrete snapshot: the subset part with its
assumption discharged, and the unconditional part applied directly. -/
theorem active_models_subset_witness :
    (∀ m ∈ active_models [exRunAT], m ∈ [exModelA].map MLModel.model_id) ∧
    (∀ m t, (m, t) ∈ get_missing_combinations [exRunAT] [exModelA] [exTaskT, exTaskU] →
      m ∈ active_models [exRunAT]) :=
  ⟨(active_models_subset [exRunAT] [exModelA] [exTaskT, exTaskU]).1 (by decide),
   (active_models_subset [exRunAT] [exModelA] [exTaskT, exTaskU]).2⟩

/-! ## Summary statistics (missing_combos.py print_summary)

The Python function receives the missing set; the set is modeled here as the
duplicate-free list of its elements in the (unspecified) iteration order.
Python divisions that can raise ZeroDivisionError are embedded in
`Except Unit`: `Except.error ()` marks such a raised exception. -/

/-- Embeds a Python percentage division `((total - count) / total) * 100`,
raising (error) when the denominator is zero, exactly as Python does. -/
def pct_of (num : Int) (den : Nat) : Except Unit Rat :=
  if den = 0 then Except.error () else Except.ok ((num : Rat) / (den : Rat) * 100)

/-- Runs a fallible computation over a list, stopping at the first error, as a
Python for loop does when an iteration raises. -/
def mapExcept {α β : Type} (f : α → Except Unit β) : List α → Except Unit (List β)
  | [] => Except.ok []
  | x :: xs =>
    match f x with
    | Except.error e => Except.error e
    | Except.ok y =>
      match mapExcept f xs with
      | Except.error e => Except.error e
      | Except.ok ys => Except.ok (y :: ys)

/-- Embeds the defaultdict counting plus
`sorted(items, key=count, reverse=True)[:5]` pattern of print_summary
(missing_combos.py lines 184-193): the distinct keys with their multiplicities,
sorted by count descending (stable), truncated to five. -/
def top_missing_counts (keys : List String) : List (String × Nat) :=
  (List.insertionSort (fun a b : String × Nat => b.2 ≤ a.2)
    (keys.dedup.map (fun k => (k, keys.count k)))).take 5

/-- Embeds the unguarded per-entity percentage annotation in the top-5 loops
of print_summary (missing_combos.py lines 193-203). -/
def annotate_pct (total : Nat) (l : List (String × Nat)) :
    Except Unit (List (String × Nat × Rat)) :=
  mapExcept (fun p => (pct_of ((total : Int) - (p.2 : Int)) total).map
    (fun c => (p.1, p.2, c))) l

/-- Result shape of print_summary: the reported statistics. -/
structure SummaryOutput where
  total_models : Nat
  total_tasks : Nat
  possible_combinations : Nat
  missing_count : Nat
  completion_percentage : Rat
  top_models : List (String × Nat × Rat)
  top_tasks : List (String × Nat × Rat)
  deriving Repr, DecidableEq

/-- Embeds print_summary (missing_combos.py lines 161-203).  The overall
completion percentage carries the explicit zero guard of line 173; the
per-entity percentages of the two top-5 loops carry no guard, so the whole
computation errors when one of their denominators is zero. -/
def print_summary (missing : List (String × String)) (model_lookup : List (String × MLModel))
    (task_lookup : List (String × Task)) : Except Unit SummaryOutput :=
  let total_models := model_lookup.length
  let total_tasks := task_lookup.length
  let all_possible := total_models * total_tasks
  let completion : Rat :=
    if 0 < all_possible then
      ((all_possible : Rat) - (missing.length : Rat)) / (all_possible : Rat) * 100
    else 0
  match annotate_pct total_tasks (top_missing_counts (missing.map Prod.fst)) with
  | Except.error e => Except.error e
  | Except.ok tm =>
    match annotate_pct total_models (top_missing_counts (missing.map Prod.snd)) with
    | Except.error e => Except.error e
    | Except.ok tt =>
      Except.ok ⟨total_models, total_tasks, all_possible, missing.length, completion, tm, tt⟩

/-- Helper: a loop whose every iteration succeeds produces a result. -/
theorem mapExcept_ok {α β : Type} (f : α → Except Unit β) (l : List α)
    (h : ∀ x ∈ l, ∃ y, f x = Except.ok y) : ∃ r, mapExcept f l = Except.ok r := by
  induction l with
  | nil => exact ⟨[], rfl⟩
  | cons x xs ih =>
    obtain ⟨y, hy⟩ := h x (List.mem_cons_self x xs)
    obtain ⟨r, hr⟩ := ih (fun z hz => h z (List.mem_cons_of_mem x hz))
    exact ⟨y :: r, by simp [mapExcept, hy, hr]⟩

/-- Helper: the per-entity annotation loop succeeds when its denominator is
nonzero. -/
theorem annotate_pct_ok (total : Nat) (l : List (String × Nat)) (h : total ≠ 0) :
    ∃ r, annotate_pct total l = Except.ok r := by
  refine mapExcept_ok _ l (fun p _ =>
    ⟨(p.1, p.2, ((((total : Int) - (p.2 : Int)) : Int) : Rat) / (total : Rat) * 100), ?_⟩)
  simp [pct_of, h, Except.map]

/-- C5 counterexample: print_summary is not guarded against a zero task total
in its per-entity percentage loops.  With one missing pair and an empty task
lookup the model loop divides by zero, so the computation raises. -/
theorem print_summary_div_by_zero_counterexample :
    print_summary [("m", "t")] [("a", exModelA)] [] = Except.error () := rfl

/-- C5 (amended): the overall completion percentage is guarded, equal to
(possible - missing)/possible x 100 and 0 when possible is 0; the per-entity
percentages in the top-5 loops are not guarded, but no division by zero occurs
whenever the missing set is empty or both entity totals are nonzero. -/
theorem print_summary_no_div_by_zero (missing : List (String × String))
    (model_lookup : List (String × MLModel)) (task_lookup : List (String × Task))
    (h : missing = [] ∨ (model_lookup.length ≠ 0 ∧ task_lookup.length ≠ 0)) :
    ∃ out, print_summary missing model_lookup task_lookup = Except.ok out ∧
      out.completion_percentage =
        (if 0 < model_lookup.length * task_lookup.length then
          ((model_lookup.length * task_lookup.length : Rat) - (missing.length : Rat)) /
            (model_lookup.length * task_lookup.length : Rat) * 100
        else 0) := by
  rcases h with h | ⟨hm0, ht0⟩
  · subst h
    exact ⟨_, rfl, by norm_num⟩
  · obtain ⟨tm, htm⟩ :=
      annotate_pct_ok task_lookup.length (top_missing_counts (missing.map Prod.fst)) ht0
    obtain ⟨tt, htt⟩ :=
      annotate_pct_ok model_lookup.length (top_missing_counts (missing.map Prod.snd)) hm0
    refine ⟨⟨model_lookup.length, task_lookup.length,
      model_lookup.length * task_lookup.length, missing.length,
      (if 0 < model_lookup.length * task_lookup.length then
        ((model_lookup.length * task_lookup.length : Rat) - (missing.length : Rat)) /
          (model_lookup.length * task_lookup.length : Rat) * 100
      else 0), tm, tt⟩, ?_, by norm_num⟩
    simp only [print_summary, htm, htt]
    norm_num

/-- Witness for C5 (amended) at a concrete snapshot with one missing pair, one
model and one task. -/
theorem print_summary_no_div_by_zero_witness :
    ∃ out, print_summary [("m", "t")] [("a", exModelA)] [("t", exTaskT)] = Except.ok out ∧
      out.completion_percentage =
        (if 0 < [("a", exModelA)].length * [("t", exTaskT)].length then
          (([("a", exModelA)].length * [("t", exTaskT)].length : Rat) -
            (([("m", "t")] : List (String × String)).length : Rat)) /
            ([("a", exModelA)].length * [("t", exTaskT)].length : Rat) * 100
        else 0) :=
  print_summary_no_div_by_zero [("m", "t")] [("a", exModelA)] [("t", exTaskT)]
    (Or.inr ⟨by decide, by decide⟩)


/-! ## Ranking Builder (airtable.py print_high_scores)

The Python stable sort `sorted(..., key=..., reverse=True)` is modeled by
`List.insertionSort` with the corresponding reversed comparison, which is
likewise a stable comparison sort. -/

/-- Embeds the score filter shared by print_high_scores (airtable.py line 70)
and print_performance_timeline (line 104): scores whose run is on the given
task path and whose scorer matches. -/
def task_scores_of (task_path : String) (scores : List Score) (scorer : String) : List Score :=
  scores.filter (fun s => s.benchmark_run.task.path == task_path && s.scorer == scorer)

/-- Descending-mean comparison used by the ranking sort. -/
def meanGe (a b : Score) : Prop := b.mean ≤ a.mean

instance : DecidableRel meanGe :=
  fun a b => inferInstanceAs (Decidable (b.mean ≤ a.mean))

instance : IsTotal Score meanGe :=
  ⟨fun a b => le_total b.mean a.mean⟩

instance : IsTrans Score meanGe :=
  ⟨fun a b c h1 h2 => le_trans h2 h1⟩

/-- Embeds print_high_scores (airtable.py lines 65-97): filter by task and
scorer, stable sort by mean descending, truncate to the top 10. -/
def print_high_scores (task_path : String) (scores : List Score) (scorer : String) :
    List Score :=
  (List.insertionSort meanGe (task_scores_of task_path scores scorer)).take 10

/-- Helper: in a list sorted under R, every kept element relates to every
dropped element. -/
theorem pairwise_take_drop {α : Type} {R : α → α → Prop} {l : List α}
    (h : l.Pairwise R) (n : Nat) :
    ∀ a ∈ l.take n, ∀ b ∈ l.drop n, R a b := by
  have h2 : (l.take n ++ l.drop n).Pairwise R := by
    rw [List.take_append_drop]
    exact h
  exact fun a ha b hb => (List.pairwise_append.mp h2).2.2 a ha b hb

/-- C6: the ranking output is the task-and-scorer filtered scores, stable
sorted descending by mean, truncated to 10; its length is at most 10, it is
sorted descending, every kept score has mean at least that of every
filtered-but-excluded score, and the sorted list is a permutation of the
filtered list (no deduplication). -/
theorem high_scores_ranking (task_path : String) (scores : List Score) (scorer : String) :
    (print_high_scores task_path scores scorer).length ≤ 10 ∧
    List.Sorted meanGe (print_high_scores task_path scores scorer) ∧
    (List.insertionSort meanGe (task_scores_of task_path scores scorer)).Perm
      (task_scores_of task_path scores scorer) ∧
    print_high_scores task_path scores scorer =
      (List.insertionSort meanGe (task_scores_of task_path scores scorer)).take 10 ∧
    (∀ a ∈ print_high_scores task_path scores scorer,
      ∀ b ∈ (List.insertionSort meanGe (task_scores_of task_path scores scorer)).drop 10,
        b.mean ≤ a.mean) := by
  refine ⟨List.length_take_le 10 _,
    List.Pairwise.sublist (List.take_sublist 10 _)
      (List.sorted_insertionSort meanGe (task_scores_of task_path scores scorer)),
    List.perm_insertionSort meanGe (task_scores_of task_path scores scorer),
    rfl, ?_⟩
  intro a ha b hb
  exact pairwise_take_drop
    (List.sorted_insertionSort meanGe (task_scores_of task_path scores scorer)) 10 a ha b hb

/-- Concrete scores used in witnesses: model "b" (dated), integer means. -/
def exRunBT : BenchmarkRun := { model := exModelB, task := exTaskT, status := "Success" }

/-- Concrete score of model "a" on task "t" with mean 3. -/
def exScoreA3 : Score := { benchmark_run := exRunAT, scorer := "sc", mean := 3, stderr := 0 }

/-- Concrete score of model "b" on task "t" with mean 2. -/
def exScoreB2 : Score := { benchmark_run := exRunBT, scorer := "sc", mean := 2, stderr := 0 }

/-- Concrete score of model "b" on task "t" with mean 5. -/
def exScoreB5 : Score := { benchmark_run := exRunBT, scorer := "sc", mean := 5, stderr := 0 }

/-- Witness for C6 at a concrete score collection. -/
theorem high_scores_ranking_witness :
    (print_high_scores "t" [exScoreA3, exScoreB5, exScoreB2] "sc").length ≤ 10 ∧
    List.Sorted meanGe (print_high_scores "t" [exScoreA3, exScoreB5, exScoreB2] "sc") :=
  ⟨(high_scores_ranking "t" [exScoreA3, exScoreB5, exScoreB2] "sc").1,
   (high_scores_ranking "t" [exScoreA3, exScoreB5, exScoreB2] "sc").2.1⟩

/-! ## Timeline Builder (airtable.py print_performance_timeline) -/

/-- Release-date ordinal of the model behind a score; applied only to dated
scores, where the default is never reached. -/
def dateKey (s : Score) : Nat := s.benchmark_run.model.release_date.getD 0

/-- Ascending release-date comparison used by the chronological sort. -/
def dateLe (a b : Score) : Prop := dateKey a ≤ dateKey b

instance : DecidableRel dateLe :=
  fun a b => inferInstanceAs (Decidable (dateKey a ≤ dateKey b))

instance : IsTotal Score dateLe := ⟨fun a b => Nat.le_total (dateKey a) (dateKey b)⟩

instance : IsTrans Score dateLe := ⟨fun a b c h1 h2 => Nat.le_trans h1 h2⟩

/-- Embeds the chronological stable sort of dated scores (airtable.py lines
129-133). -/
def sort_by_release_date (l : List Score) : List Score := List.insertionSort dateLe l

/-- Embeds the partition filter keeping scores whose model has a release date
(airtable.py line 116). -/
def dated_of (l : List Score) : List Score :=
  l.filter (fun s => s.benchmark_run.model.release_date.isSome)

/-- Embeds the partition filter keeping scores whose model lacks a release
date (airtable.py line 115). -/
def undated_of (l : List Score) : List Score :=
  l.filter (fun s => !s.benchmark_run.model.release_date.isSome)

/-- Timeline entry appended on each strict improvement (airtable.py lines
142-147). -/
structure TimelineEntry where
  date : Nat
  model : String
  score : Rat
  stderr : Rat
  deriving Repr, DecidableEq

/-- Entry built from a score (airtable.py lines 142-147). -/
def timeline_entry_of (s : Score) : TimelineEntry :=
  ⟨dateKey s, s.benchmark_run.model.model_id, s.mean, s.stderr⟩

/-- Embeds the comparison `score.mean > best_score`, where best_score starts
at float negative infinity, modeled as `none`. -/
def beats : Option Rat → Rat → Bool
  | none, _ => true
  | some b, m => decide (b < m)

/-- Embeds the best-so-far scan (airtable.py lines 136-147): append an entry
exactly when the mean strictly exceeds the running maximum. -/
def best_loop : Option Rat → List Score → List TimelineEntry
  | _, [] => []
  | best, s :: rest =>
    if beats best s.mean then timeline_entry_of s :: best_loop (some s.mean) rest
    else best_loop best rest

/-- Result shape of print_performance_timeline: which informational messages
were printed, the exclusion warning (count of excluded scores and deduplicated
model_ids), and the improvements timeline.  The embedding is a total function:
no input raises. -/
structure TimelineOutput where
  no_scores_msg : Bool
  warning : Option (Nat × List String)
  no_dated_msg : Bool
  improvements : List TimelineEntry
  deriving Repr, DecidableEq

/-- Embeds print_performance_timeline (airtable.py lines 100-168). -/
def print_performance_timeline (task_path : String) (scores : List Score) (scorer : String) :
    TimelineOutput :=
  let task_scores := task_scores_of task_path scores scorer
  if task_scores.isEmpty then ⟨true, none, false, []⟩
  else
    let scores_without_dates := undated_of task_scores
    let dated_scores := dated_of task_scores
    let warning :=
      if scores_without_dates.isEmpty then none
      else some (scores_without_dates.length,
        (scores_without_dates.map (fun s => s.benchmark_run.model.model_id)).dedup)
    if dated_scores.isEmpty then ⟨false, warning, true, []⟩
    else ⟨false, warning, false, best_loop none (sort_by_release_date dated_scores)⟩

/-- Helper: every produced entry comes from a list element whose mean strictly
exceeds the incoming running maximum. -/
theorem best_loop_mem (l : List Score) (best : Option Rat) (e : TimelineEntry)
    (he : e ∈ best_loop best l) :
    ∃ s ∈ l, e = timeline_entry_of s ∧ ∀ b, best = some b → b < s.mean := by
  induction l generalizing best with
  | nil => simp [best_loop] at he
  | cons s rest ih =>
    by_cases hb : beats best s.mean = true
    · rw [best_loop, if_pos hb] at he
      rcases List.mem_cons.mp he with he1 | he2
      · refine ⟨s, List.mem_cons_self s rest, he1, ?_⟩
        intro b hbs
        subst hbs
        exact of_decide_eq_true hb
      · obtain ⟨s2, hs2, he2e, hgt⟩ := ih (some s.mean) he2
        refine ⟨s2, List.mem_cons_of_mem s hs2, he2e, ?_⟩
        intro b hbs
        subst hbs
        exact (of_decide_eq_true hb).trans (hgt s.mean rfl)
    · rw [best_loop, if_neg hb] at he
      obtain ⟨s2, hs2, he2e, hgt⟩ := ih best he
      exact ⟨s2, List.mem_cons_of_mem s hs2, he2e, hgt⟩

/-- Helper: on a date-sorted input the scan yields strictly increasing scores
with nondecreasing dates. -/
theorem best_loop_chain (l : List Score) (hs : l.Pairwise dateLe) (best : Option Rat) :
    List.Chain' (fun e1 e2 => e1.score < e2.score ∧ e1.date ≤ e2.date) (best_loop best l) := by
  induction l generalizing best with
  | nil => simp [best_loop]
  | cons s rest ih =>
    have hhead := (List.pairwise_cons.mp hs).1
    have hrest := (List.pairwise_cons.mp hs).2
    by_cases hb : beats best s.mean = true
    · rw [best_loop, if_pos hb]
      refine List.chain'_cons'.mpr ⟨?_, ih hrest (some s.mean)⟩
      intro e he
      obtain ⟨s2, hs2, he2e, hgt⟩ :=
        best_loop_mem rest (some s.mean) e (List.mem_of_mem_head? he)
      subst he2e
      exact ⟨hgt s.mean rfl, hhead s2 hs2⟩
    · rw [best_loop, if_neg hb]
      exact ih hrest best

/-- C3: a timeline entry is appended exactly when a mean strictly exceeds the
running maximum seeded at negative infinity: a score not exceeding the current
maximum (in particular one equal to it) produces no entry, a strictly greater
one appends an entry, and every produced timeline has strictly increasing
means and nondecreasing dates. -/
theorem timeline_strict_improvement :
    (∀ task_path scores scorer,
      List.Chain' (fun e1 e2 => e1.score < e2.score ∧ e1.date ≤ e2.date)
        (print_performance_timeline task_path scores scorer).improvements) ∧
    (∀ (b : Rat) (s : Score) (rest : List Score), ¬ b < s.mean →
      best_loop (some b) (s :: rest) = best_loop (some b) rest) ∧
    (∀ (b : Rat) (s : Score) (rest : List Score), b < s.mean →
      best_loop (some b) (s :: rest) =
        timeline_entry_of s :: best_loop (some s.mean) rest) := by
  refine ⟨?_, ?_, ?_⟩
  · intro task_path scores scorer
    by_cases h1 : (task_scores_of task_path scores scorer).isEmpty = true
    · simp [print_performance_timeline, h1]
    · by_cases h2 : (dated_of (task_scores_of task_path scores scorer)).isEmpty = true
      · simp [print_performance_timeline, h1, h2]
      · have h3 :
            (print_performance_timeline task_path scores scorer).improvements =
              best_loop none
                (sort_by_release_date (dated_of (task_scores_of task_path scores scorer))) := by
          simp [print_performance_timeline, h1, h2]
        rw [h3]
        exact best_loop_chain _
          (List.sorted_insertionSort dateLe
            (dated_of (task_scores_of task_path scores scorer))) none
  · intro b s rest h
    rw [best_loop, if_neg]
    simp [beats, h]
  · intro b s rest h
    rw [best_loop, if_pos]
    simp [beats, h]

/-- Witness for C3 at concrete inputs: a mixed score collection for the chain
property, and concrete running maxima for the append and skip equations. -/
theorem timeline_strict_improvement_witness :
    List.Chain' (fun e1 e2 => e1.score < e2.score ∧ e1.date ≤ e2.date)
      (print_performance_timeline "t" [exScoreA3, exScoreB5, exScoreB2] "sc").improvements ∧
    best_loop (some 5) (exScoreA3 :: []) = best_loop (some 5) [] ∧
    best_loop (some 2) (exScoreA3 :: []) =
      timeline_entry_of exScoreA3 :: best_loop (some exScoreA3.mean) [] :=
  ⟨timeline_strict_improvement.1 "t" [exScoreA3, exScoreB5, exScoreB2] "sc",
   timeline_strict_improvement.2.1 5 exScoreA3 [] (by decide),
   timeline_strict_improvement.2.2 2 exScoreA3 [] (by decide)⟩

/-- C7: every timeline entry arises from a matching score whose model has a
release date, so a score of a model lacking one never appears in any entry;
and when such scores exist the output carries a warning with their count and
the deduplicated excluded model_ids. -/
theorem timeline_excludes_undated (task_path : String) (scores : List Score) (scorer : String) :
    (∀ e ∈ (print_performance_timeline task_path scores scorer).improvements,
      ∃ s ∈ task_scores_of task_path scores scorer,
        s.benchmark_run.model.release_date.isSome = true ∧ e = timeline_entry_of s) ∧
    (undated_of (task_scores_of task_path scores scorer) ≠ [] →
      (print_performance_timeline task_path scores scorer).warning =
        some ((undated_of (task_scores_of task_path scores scorer)).length,
          ((undated_of (task_scores_of task_path scores scorer)).map
            (fun s => s.benchmark_run.model.model_id)).dedup)) := by
  constructor
  · intro e he
    by_cases h1 : (task_scores_of task_path scores scorer).isEmpty = true
    · simp [print_performance_timeline, h1] at he
    · by_cases h2 : (dated_of (task_scores_of task_path scores scorer)).isEmpty = true
      · simp [print_performance_timeline, h1, h2] at he
      · have h3 :
            (print_performance_timeline task_path scores scorer).improvements =
              best_loop none
                (sort_by_release_date (dated_of (task_scores_of task_path scores scorer))) := by
          simp [print_performance_timeline, h1, h2]
        rw [h3] at he
        obtain ⟨s, hsmem, hse, _⟩ := best_loop_mem _ none e he
        have hs2 : s ∈ dated_of (task_scores_of task_path scores scorer) :=
          (List.perm_insertionSort dateLe _).mem_iff.mp hsmem
        have hs3 := List.mem_filter.mp hs2
        exact ⟨s, hs3.1, hs3.2, hse⟩
  · intro hne
    have h1 : (task_scores_of task_path scores scorer).isEmpty = false := by
      rcases h0 : task_scores_of task_path scores scorer with _ | ⟨x, xs⟩
      · exact absurd (by simp [undated_of, h0]) hne
      · rfl
    by_cases h2 : (undated_of (task_scores_of task_path scores scorer)).isEmpty = true
    · exact absurd (List.isEmpty_iff.mp h2) hne
    · by_cases h3 : (dated_of (task_scores_of task_path scores scorer)).isEmpty = true
      · simp [print_performance_timeline, h1, h2, h3]
      · simp [print_performance_timeline, h1, h2, h3]

/-- Witness for C7 at a concrete score collection containing one undated and
one dated matching score. -/
theorem timeline_excludes_undated_witness :
    (∀ e ∈ (print_performance_timeline "t" [exScoreA3, exScoreB5] "sc").improvements,
      ∃ s ∈ task_scores_of "t" [exScoreA3, exScoreB5] "sc",
        s.benchmark_run.model.release_date.isSome = true ∧ e = timeline_entry_of s) ∧
    (print_performance_timeline "t" [exScoreA3, exScoreB5] "sc").warning =
      some ((undated_of (task_scores_of "t" [exScoreA3, exScoreB5] "sc")).length,
        ((undated_of (task_scores_of "t" [exScoreA3, exScoreB5] "sc")).map
          (fun s => s.benchmark_run.model.model_id)).dedup) :=
  ⟨(timeline_excludes_undated "t" [exScoreA3, exScoreB5] "sc").1,
   (timeline_excludes_undated "t" [exScoreA3, exScoreB5] "sc").2 (by decide)⟩

/-- C9: with no score matching the task and scorer the builder reports the
no-scores message and returns an empty result; with matching scores but none
dated it reports the no-dated-models message and returns an empty result.
The embedding is total, so neither case raises. -/
theorem timeline_empty_results (task_path : String) (scores : List Score) (scorer : String) :
    (task_scores_of task_path scores scorer = [] →
      print_performance_timeline task_path scores scorer = ⟨true, none, false, []⟩) ∧
    (task_scores_of task_path scores scorer ≠ [] →
      dated_of (task_scores_of task_path scores scorer) = [] →
      (print_performance_timeline task_path scores scorer).no_dated_msg = true ∧
      (print_performance_timeline task_path scores scorer).improvements = []) := by
  constructor
  · intro h0
    have h1 : (task_scores_of task_path scores scorer).isEmpty = true := by simp [h0]
    simp [print_performance_timeline, h1]
  · intro hne hd
    have h1 : (task_scores_of task_path scores scorer).isEmpty = false := by
      rcases h0 : task_scores_of task_path scores scorer with _ | ⟨x, xs⟩
      · exact absurd h0 hne
      · rfl
    have h2 : (dated_of (task_scores_of task_path scores scorer)).isEmpty = true := by
      simp [hd]
    constructor
    · simp [print_performance_timeline, h1, h2]
    · simp [print_performance_timeline, h1, h2]

/-- Witness for C9: an empty score collection for the first case, and a
single undated matching score for the second. -/
theorem timeline_empty_results_witness :
    print_performance_timeline "t" [] "sc" = ⟨true, none, false, []⟩ ∧
    ((print_performance_timeline "t" [exScoreA3] "sc").no_dated_msg = true ∧
      (print_performance_timeline "t" [exScoreA3] "sc").improvements = []) :=
  ⟨(timeline_empty_results "t" [] "sc").1 rfl,
   (timeline_empty_results "t" [exScoreA3] "sc").2 (by decide) (by decide)⟩

/-- C10: when at least one matching score is dated, the timeline is nonempty
and its first entry is built from the first dated score in release-date-sorted
order, because that score strictly exceeds the negative-infinity seed. -/
theorem timeline_first_entry (task_path : String) (scores : List Score) (scorer : String)
    (h : dated_of (task_scores_of task_path scores scorer) ≠ []) :
    (print_performance_timeline task_path scores scorer).improvements ≠ [] ∧
    (print_performance_timeline task_path scores scorer).improvements.head? =
      (sort_by_release_date (dated_of (task_scores_of task_path scores scorer))).head?.map
        timeline_entry_of := by
  have hts : task_scores_of task_path scores scorer ≠ [] := by
    intro h0
    exact h (by simp [dated_of, h0])
  have h1 : (task_scores_of task_path scores scorer).isEmpty = false := by
    rcases h0 : task_scores_of task_path scores scorer with _ | ⟨x, xs⟩
    · exact absurd h0 hts
    · rfl
  have h2 : (dated_of (task_scores_of task_path scores scorer)).isEmpty = false := by
    rcases h0 : dated_of (task_scores_of task_path scores scorer) with _ | ⟨x, xs⟩
    · exact absurd h0 h
    · rfl
  have h3 :
      (print_performance_timeline task_path scores scorer).improvements =
        best_loop none
          (sort_by_release_date (dated_of (task_scores_of task_path scores scorer))) := by
    simp [print_performance_timeline, h1, h2]
  rcases hl : sort_by_release_date (dated_of (task_scores_of task_path scores scorer))
    with _ | ⟨s, rest⟩
  · exfalso
    have hperm := List.perm_insertionSort dateLe
      (dated_of (task_scores_of task_path scores scorer))
    rw [sort_by_release_date] at hl
    rw [hl] at hperm
    exact h hperm.symm.eq_nil
  · rw [h3, hl]
    constructor
    · rw [best_loop]
      simp [beats]
    · rw [best_loop]
      simp [beats]

/-- Witness for C10 at a concrete collection with one dated matching score. -/
theorem timeline_first_entry_witness :
    (print_performance_timeline "t" [exScoreA3, exScoreB5] "sc").improvements ≠ [] ∧
    (print_performance_timeline "t" [exScoreA3, exScoreB5] "sc").improvements.head? =
      (sort_by_release_date (dated_of (task_scores_of "t" [exScoreA3, exScoreB5] "sc"))).head?.map
        timeline_entry_of :=
  timeline_first_entry "t" [exScoreA3, exScoreB5] "sc" (by decide)

/-! ## Comparison Matrix Builder (reasoning_models_analysis.py) -/

/-- Embeds the qualification test of print_model_comparison
(reasoning_models_analysis.py lines 50-52): the score model is in the cohort,
its task path is a key of the scorer mapping, and its scorer matches the
configured scorer for that task. -/
def score_qualifies (models : List MLModel) (task_scorers : List (String × String))
    (s : Score) : Bool :=
  (models.map MLModel.model_id).contains s.benchmark_run.model.model_id &&
    match task_scorers.lookup s.benchmark_run.task.path with
    | some sc => s.scorer == sc
    | none => false

/-- Embeds one iteration of the score-collection loop
(reasoning_models_analysis.py lines 49-53): a qualifying score overwrites the
cell at its own (model_id, task_path) key. -/
def model_scores_step (models : List MLModel) (task_scorers : List (String × String))
    (acc : String → String → Option Score) (s : Score) : String → String → Option Score :=
  if score_qualifies models task_scorers s then
    fun mid tp =>
      if mid == s.benchmark_run.model.model_id && tp == s.benchmark_run.task.path then some s
      else acc mid tp
  else acc

/-- Embeds the nested dictionary model_scores built by the scan over all
scores (reasoning_models_analysis.py lines 48-53), as a lookup function. -/
def model_scores (scores : List Score) (models : List MLModel)
    (task_scorers : List (String × String)) : String → String → Option Score :=
  scores.foldl (model_scores_step models task_scorers) (fun _ _ => none)

/-- Helper: the last element of a nonempty cons is the last of the tail when
the tail is nonempty. -/
theorem getLast?_cons_or {α : Type} (a : α) (l : List α) :
    (a :: l).getLast? = l.getLast?.or (some a) := by
  induction l generalizing a with
  | nil => rfl
  | cons b m ih =>
    rw [List.getLast?_cons_cons, ih b]
    cases m.getLast? with
    | none => rfl
    | some x => rfl

/-- Helper: Option.or is associative. -/
theorem option_or_assoc {α : Type} (a b c : Option α) : (a.or b).or c = a.or (b.or c) := by
  cases a <;> rfl

/-- Helper: the scan loop computes, at each key, the last qualifying score
with that key, falling back to the incoming accumulator. -/
theorem model_scores_loop (models : List MLModel) (task_scorers : List (String × String))
    (l : List Score) (acc : String → String → Option Score) (mid tp : String) :
    (l.foldl (model_scores_step models task_scorers) acc) mid tp =
      ((l.filter (fun s => score_qualifies models task_scorers s &&
        s.benchmark_run.model.model_id == mid &&
        s.benchmark_run.task.path == tp)).getLast?).or (acc mid tp) := by
  induction l generalizing acc with
  | nil => rfl
  | cons s rest ih =>
    rw [List.foldl_cons, ih]
    by_cases hq1 : score_qualifies models task_scorers s = true
    · by_cases hmid : s.benchmark_run.model.model_id = mid
      · by_cases htp : s.benchmark_run.task.path = tp
        · rw [List.filter_cons_of_pos (by simp [hq1, hmid, htp])]
          rw [getLast?_cons_or, option_or_assoc]
          have hstep : model_scores_step models task_scorers acc s mid tp = some s := by
            simp [model_scores_step, hq1, hmid, htp]
          rw [hstep]
          rfl
        · rw [List.filter_cons_of_neg (by simp [htp])]
          have hstep : model_scores_step models task_scorers acc s mid tp = acc mid tp := by
            simp [model_scores_step, hq1, beq_iff_eq, Ne.symm htp]
          rw [hstep]
      · rw [List.filter_cons_of_neg (by simp [hmid])]
        have hstep : model_scores_step models task_scorers acc s mid tp = acc mid tp := by
          simp [model_scores_step, hq1, beq_iff_eq, Ne.symm hmid]
        rw [hstep]
    · rw [List.filter_cons_of_neg (by simp [hq1])]
      have hstep : model_scores_step models task_scorers acc s mid tp = acc mid tp := by
        simp [model_scores_step, hq1]
      rw [hstep]

/-- C4: the cell at (mid, tp) holds the last-seen score among the scores whose
model is in the cohort, whose task path is a key of the scorer mapping, and
whose scorer equals the configured scorer for that task; no averaging is
performed.  The first part spells the qualification test out in terms of the
collections. -/
theorem model_scores_last_seen (scores : List Score) (models : List MLModel)
    (task_scorers : List (String × String)) (mid tp : String) :
    (∀ s, score_qualifies models task_scorers s = true ↔
      ((∃ mdl ∈ models, mdl.model_id = s.benchmark_run.model.model_id) ∧
        task_scorers.lookup s.benchmark_run.task.path = some s.scorer)) ∧
    model_scores scores models task_scorers mid tp =
      (scores.filter (fun s => score_qualifies models task_scorers s &&
        s.benchmark_run.model.model_id == mid &&
        s.benchmark_run.task.path == tp)).getLast? := by
  constructor
  · intro s
    rw [score_qualifies]
    cases hl : task_scorers.lookup s.benchmark_run.task.path with
    | none => simp [List.elem_iff]
    | some sc =>
      simp only [Bool.and_eq_true, List.elem_iff, List.mem_map, beq_iff_eq]
      constructor
      · rintro ⟨hmem, hsc⟩
        exact ⟨hmem, by rw [hsc]⟩
      · rintro ⟨hmem, hsc⟩
        exact ⟨hmem, (Option.some.inj hsc).symm⟩
  · rw [model_scores, model_scores_loop]
    cases (scores.filter (fun s => score_qualifies models task_scorers s &&
        s.benchmark_run.model.model_id == mid &&
        s.benchmark_run.task.path == tp)).getLast? with
    | none => rfl
    | some x => rfl

/-- Embeds print_model_comparison (reasoning_models_analysis.py lines 36-95)
as far as its analytic content goes: the guard models the KeyError raised at
column-creation time (line 67) when a task path is missing from the scorer
mapping, and each emitted row is a cohort model with its per-task cells,
emitted only when at least one cell matched (lines 70-93).  The score
collection, fetched inside the Python function, is a parameter here. -/
def print_model_comparison (models : List MLModel) (tasks : List Task)
    (task_scorers : List (String × String)) (scores : List Score) :
    Except Unit (List (MLModel × List (Option Score))) :=
  if tasks.all (fun t => (task_scorers.lookup t.path).isSome) then
    Except.ok (models.filterMap (fun mdl =>
      let cells := tasks.map
        (fun t => model_scores scores models task_scorers mdl.model_id t.path)
      if cells.any Option.isSome then some (mdl, cells) else none))
  else Except.error ()

/-- C8: every emitted row has at least one matched cell, and a cohort model
all of whose cells are empty is omitted from the output entirely. -/
theorem comparison_no_blank_rows (models : List MLModel) (tasks : List Task)
    (task_scorers : List (String × String)) (scores : List Score)
    (rows : List (MLModel × List (Option Score)))
    (h : print_model_comparison models tasks task_scorers scores = Except.ok rows) :
    (∀ r ∈ rows, ∃ c ∈ r.2, c.isSome = true) ∧
    (∀ mdl ∈ models,
      (∀ t ∈ tasks, model_scores scores models task_scorers mdl.model_id t.path = none) →
      mdl ∉ rows.map Prod.fst) := by
  by_cases hc : tasks.all (fun t => (task_scorers.lookup t.path).isSome) = true
  · rw [print_model_comparison, if_pos hc] at h
    have hrows := (Except.ok.injEq _ _).mp h
    subst hrows
    constructor
    · intro r hr
      obtain ⟨mdl, hmdl, hsome⟩ := List.mem_filterMap.mp hr
      simp only at hsome
      split at hsome
      · obtain rfl := Option.some.inj hsome
        rename_i hany
        exact List.any_eq_true.mp hany
      · cases hsome
    · intro mdl hmdl hnone hmem
      obtain ⟨r, hr, hfst⟩ := List.mem_map.mp hmem
      obtain ⟨mdl2, hmdl2, hsome⟩ := List.mem_filterMap.mp hr
      simp only at hsome
      split at hsome
      · obtain rfl := Option.some.inj hsome
        rename_i hany
        obtain ⟨c, hc2, hcs⟩ := List.any_eq_true.mp hany
        obtain ⟨t, ht, hct⟩ := List.mem_map.mp hc2
        have hmdl2eq : mdl2 = mdl := hfst
        rw [hmdl2eq] at hct
        rw [hnone t ht] at hct
        rw [← hct] at hcs
        cases hcs
      · cases hsome
  · rw [print_model_comparison, if_neg hc] at h
    cases h

/-- Witness for C8 at a concrete snapshot with one cohort model and one
matching score. -/
theorem comparison_no_blank_rows_witness :
    (∀ r ∈ [(exModelB, [some exScoreB5])], ∃ c ∈ r.2, c.isSome = true) ∧
    (∀ mdl ∈ [exModelB],
      (∀ t ∈ [exTaskT],
        model_scores [exScoreB5] [exModelB] [("t", "sc")] mdl.model_id t.path = none) →
      mdl ∉ ([(exModelB, [some exScoreB5])] :
        List (MLModel × List (Option Score))).map Prod.fst) :=
  comparison_no_blank_rows [exModelB] [exTaskT] [("t", "sc")] [exScoreB5]
    [(exModelB, [some exScoreB5])] rfl

end Epoch
